import Mathlib

/-!
Verification of the joesaby/ticket-manager repository against its specification.

The development shallowly embeds the core pipeline of the three Python sources:
  * `src/app.py` — `TicketProcessor` (detection cascade, overlay compositor, Flask routes),
  * `src/standalone.py` — `SimpleTicketOverlay` (CLI validation and overlay),
  * `src/complete_qr_extractor.py` — `CompleteQRExtractor` (box expansion, fragment
    extraction, placement, numbering, label masking).

Machine integers are modelled as `Int`/`Nat`; Python floats appearing in the geometry
(page dimensions, opacity, scale factors) are modelled as exact rationals, and Python's
`int()` conversion as truncation toward zero (`pyInt`).
-/

namespace TicketManager

/-- Python `int()` applied to a real value: truncation toward zero. -/
def pyInt (q : ℚ) : ℤ := if q < 0 then -⌊-q⌋ else ⌊q⌋

/-- A QR bounding box in integer page coordinates `(x, y, width, height)`, as consumed by
`apply_overlay` in app.py (after the `int(qr[...])` conversions, lines 265-268) and by
the box expansion in complete_qr_extractor.py (after the `// 2` divisions). -/
structure QRBox where
  x : ℤ
  y : ℤ
  w : ℤ
  h : ℤ
deriving DecidableEq, Repr

/-- A filled rectangle `(x1, y1, x2, y2)` on the alpha mask. -/
structure Rect where
  x1 : ℤ
  y1 : ℤ
  x2 : ℤ
  y2 : ℤ
deriving DecidableEq, Repr

/-- app.py `apply_overlay` lines 270-274 (identically standalone.py lines 123-126):
the padded, page-clamped protection bounds of one QR box. -/
def protRect (page_width page_height padding : ℤ) (q : QRBox) : Rect :=
  { x1 := max 0 (q.x - padding)
    y1 := max 0 (q.y - padding)
    x2 := min page_width (q.x + q.w + padding)
    y2 := min page_height (q.y + q.h + padding) }

/-- Membership of a pixel in a mask rectangle. PIL's `ImageDraw.rectangle` fills
inclusively of both corners. -/
def inRect (r : Rect) (p : ℤ × ℤ) : Bool :=
  decide (r.x1 ≤ p.1 ∧ p.1 ≤ r.x2 ∧ r.y1 ≤ p.2 ∧ p.2 ≤ r.y2)

/-- One `draw.rectangle([x1, y1, x2, y2], fill=c)` call on a grayscale mask. -/
def drawRect (mask : ℤ × ℤ → ℤ) (r : Rect) (fill : ℤ) : ℤ × ℤ → ℤ :=
  fun p => if inRect r p then fill else mask p

/-- app.py `apply_overlay` lines 258-280 (identically standalone.py lines 107-133),
branch with at least one detected QR box: a mask initialized everywhere to
`int(255 * opacity)`, then each padded page-clamped QR rectangle filled with 0. -/
def buildMask (page_width page_height padding : ℤ) (opacity : ℚ)
    (qrs : List QRBox) : ℤ × ℤ → ℤ :=
  qrs.foldl (fun m q => drawRect m (protRect page_width page_height padding q) 0)
    (fun _ => pyInt (255 * opacity))

/-- The compositor's output alpha at a pixel: app.py `apply_overlay` lines 258-285.
With no detected QR boxes the design's own alpha channel is pointwise multiplied by
the opacity through `alpha.point(lambda p: int(p * opacity))`. -/
def overlayAlpha (page_width page_height padding : ℤ) (opacity : ℚ)
    (designAlpha : ℤ × ℤ → ℤ) (qrs : List QRBox) (p : ℤ × ℤ) : ℤ :=
  if qrs.isEmpty then pyInt ((designAlpha p : ℚ) * opacity)
  else buildMask page_width page_height padding opacity qrs p

/-- A detected QR bounding box in zoomed-raster coordinates (nonnegative pixel units),
as returned by pyzbar's `qr.rect`. -/
structure RasterBox where
  x : ℕ
  y : ℕ
  w : ℕ
  h : ℕ
deriving DecidableEq, Repr

/-- complete_qr_extractor.py `extract_complete_qr_boxes` lines 47-56: each raster
coordinate and dimension is divided by the zoom factor with Python floor division
(`x // 2`), generalized here over the zoom `z`. In app.py the same conversion is split
into a float division `x / 2` (`extract_pdf_info` lines 79-89) followed by `int(...)`
at the use site (`apply_overlay` lines 265-268), which agrees with floor division on
nonnegative inputs. -/
def toPageSpace (z : ℕ) (r : RasterBox) : RasterBox :=
  ⟨r.x / z, r.y / z, r.w / z, r.h / z⟩

/-- A complete QR box (QR plus the text label above) in page coordinates. -/
structure CompleteBox where
  x : ℤ
  y : ℤ
  w : ℤ
  h : ℤ
deriving DecidableEq, Repr

/-- complete_qr_extractor.py line 79. -/
def text_height : ℤ := 80

/-- complete_qr_extractor.py line 80. -/
def side_padding : ℤ := 20

/-- complete_qr_extractor.py line 81. -/
def bottom_padding : ℤ := 10

/-- complete_qr_extractor.py `extract_complete_qr_boxes` lines 76-103: expansion of a
page-space QR region into a complete box covering the text label above, then clamping
against the page rectangle. Page dimensions are Python floats (`page.rect.width` and
`page.rect.height`), modelled as rationals; the final width and height pass through
`int(...)`. The source contains no lower clamp at 0 for the width or the height. -/
def expandToCompleteBox (page_width page_height : ℚ) (qr : QRBox) : CompleteBox :=
  let box_x : ℤ := max 0 (qr.x - side_padding)
  let box_y : ℤ := max 0 (qr.y - text_height)
  let box_width : ℚ := min ((qr.w + 2 * side_padding : ℤ) : ℚ) (page_width - box_x)
  let box_height : ℚ :=
    min ((qr.h + text_height + bottom_padding : ℤ) : ℚ) (page_height - box_y)
  ⟨box_x, box_y, pyInt box_width, pyInt box_height⟩

/-- The outcome of one Python detection call: either a list of detected boxes or a
raised exception carrying its message. -/
abbrev MethodResult := Except String (List QRBox)

/-- A `try/except` block around one detection method: an exception contributes no
regions (app.py lines 108-117 and 120-134). -/
def recover (m : MethodResult) : List QRBox :=
  match m with
  | .ok l => l
  | .error _ => []

/-- app.py `_detect_qr_by_contours` lines 142-172: the whole body runs inside a
`try/except` that returns the regions accumulated so far (none on failure). -/
def detect_qr_by_contours (inner : MethodResult) : List QRBox :=
  recover inner

/-- app.py `_detect_qr_codes` lines 103-140: the accumulated `qr_codes` list. The
enhanced decode (method 2) runs only when the list is still empty and the contour
fallback (method 3) only when it is empty after both decode methods; methods 1 and 2
are each wrapped in `try/except`. -/
def detect_qr_codes (m1 m2 : MethodResult) (m3 : List QRBox) : List QRBox :=
  let qr1 := recover m1
  let qr2 := if qr1.isEmpty then qr1 ++ recover m2 else qr1
  if qr2.isEmpty then qr2 ++ m3 else qr2

/-- complete_qr_extractor.py `extract_complete_qr_boxes` lines 43-71: a direct decode
then, if it found nothing, a thresholded decode — with no exception handling, so a
raised decoder error propagates to the caller. (standalone.py `detect_qr_codes`
lines 30-71 has the same unguarded structure.) -/
def extract_qr_regions (d1 d2 : MethodResult) : MethodResult :=
  match d1 with
  | .error e => .error e
  | .ok r1 =>
    if r1.isEmpty then
      match d2 with
      | .error e => .error e
      | .ok r2 => .ok (r1 ++ r2)
    else .ok r1

/-- The observable facts about the standalone CLI invocation that its validation
examines. -/
structure CliArgs where
  pdfExists : Bool
  designExists : Bool
  opacity : ℚ
  padding : ℤ

/-- standalone.py `main` lines 176-202: the validation sequence of the CLI. `.error`
models `sys.exit(1)` before any processing (nothing is written); `.ok` carries the
opacity and padding with which `process_pdf` — and hence the compositor — then runs. -/
def standalone_main (a : CliArgs) : Except String (ℚ × ℤ) :=
  if a.pdfExists = false then .error "Error: PDF file not found"
  else if a.designExists = false then .error "Error: Design file not found"
  else if ¬ (0 ≤ a.opacity ∧ a.opacity ≤ 1) then
    .error "Error: Opacity must be between 0.0 and 1.0"
  else .ok (a.opacity, a.padding)

/-- app.py `process_overlay` route lines 356-380: parses opacity and padding from the
request and calls `apply_overlay` with them, with no range validation anywhere on that
path. The `.ok` payload records the opacity and padding the compositor receives,
together with the mask initialization value `int(255 * opacity)` it computes
(`apply_overlay` line 260). -/
def process_overlay (opacity : ℚ) (padding : ℤ) : Except String (ℚ × ℤ × ℤ) :=
  .ok (opacity, padding, pyInt (255 * opacity))

/-- A fragment image in the fragment-mode output pipeline: either the extracted
complete-box image of one detected QR box (carrying its pixel dimensions), or the
result of `mask_awaiting_payment` applied to such an image with an optional stamped
ticket number. -/
inductive FragImage where
  | original (w h : ℤ)
  | masked (img : FragImage) (ticket : Option ℤ)
deriving DecidableEq, Repr

/-- complete_qr_extractor.py `process_pdf` lines 239-242: the per-fragment masking and
numbering step. `total_tickets` is the already-incremented counter value for this
fragment; the stamped number is `start_number + total_tickets - 1`. -/
def transform_fragment (mask_awaiting : Bool) (start_number : Option ℤ)
    (total_tickets : ℕ) (img : FragImage) : FragImage :=
  if mask_awaiting || start_number.isSome then
    FragImage.masked img (start_number.map (fun s => s + (total_tickets : ℤ) - 1))
  else img

/-- The ticket number stamped on a fragment image by `mask_awaiting_payment`, if any. -/
def stampedNumber : FragImage → Option ℤ
  | .original _ _ => none
  | .masked _ t => t

/-- The `--qr-position` choice. -/
inductive QrPosition where
  | left
  | right
  | both
deriving DecidableEq, Repr

/-- One concrete placement side. -/
inductive Side where
  | left
  | right
deriving DecidableEq, Repr

/-- complete_qr_extractor.py `process_pdf` lines 249-256: which placements the
position setting requests, in order. -/
def positions_to_place : QrPosition → List Side
  | .left => [.left]
  | .right => [.right]
  | .both => [.left, .right]

/-- complete_qr_extractor.py `process_pdf` lines 259-273: the placement coordinates of
the (already scaled) fragment on the design-sized output page for one side, including
the final re-clamps of negative coordinates to the margin. -/
def place_side (design_width design_height new_width new_height qr_margin : ℤ) :
    Side → ℤ × ℤ
  | .left =>
    let box_x := qr_margin
    let box_y := design_height - new_height - qr_margin
    (if box_x < 0 then qr_margin else box_x, if box_y < 0 then qr_margin else box_y)
  | .right =>
    let box_x := design_width - new_width - qr_margin
    let box_y := design_height - new_height - qr_margin
    (if box_x < 0 then qr_margin else box_x, if box_y < 0 then qr_margin else box_y)

/-- All placements requested by a position setting. -/
def plan_placements (design_width design_height new_width new_height qr_margin : ℤ)
    (pos : QrPosition) : List (ℤ × ℤ) :=
  (positions_to_place pos).map
    (place_side design_width design_height new_width new_height qr_margin)

/-- One generated output page: the fragment image inserted on it (after the optional
masking/numbering transform) and the positions at which it is placed. The design
template itself always fills the page first (`process_pdf` lines 220-234). -/
structure OutPage where
  frag : FragImage
  placements : List (ℤ × ℤ)
deriving DecidableEq, Repr

/-- Pixel dimensions of one extracted complete-box image (`box_img.width/height`). -/
structure BoxImg where
  w : ℤ
  h : ℤ
deriving DecidableEq, Repr

/-- complete_qr_extractor.py `process_pdf` lines 215-287: the per-box loop. One output
page is created per detected box; `total_tickets` is incremented exactly once per box;
the fragment is masked/numbered, scaled by `qr_scale` through `int(...)`, and placed at
each planned position. Returns the pages in order with the final counter value. -/
def process_go (design_width design_height : ℤ) (qr_scale : ℚ) (qr_margin : ℤ)
    (pos : QrPosition) (start_number : Option ℤ) (mask_awaiting : Bool) :
    List BoxImg → ℕ → List OutPage × ℕ
  | [], total_tickets => ([], total_tickets)
  | b :: rest, total_tickets =>
    let total := total_tickets + 1
    let img :=
      transform_fragment mask_awaiting start_number total (FragImage.original b.w b.h)
    let nw := pyInt ((b.w : ℚ) * qr_scale)
    let nh := pyInt ((b.h : ℚ) * qr_scale)
    let page : OutPage :=
      ⟨img, plan_placements design_width design_height nw nh qr_margin pos⟩
    let r := process_go design_width design_height qr_scale qr_margin pos start_number
      mask_awaiting rest total
    (page :: r.1, r.2)

/-- complete_qr_extractor.py `process_pdf` lines 204-212: the complete boxes of all
pages are collected in page order via `all_qr_boxes.extend(...)`. -/
def collect_boxes (page_boxes : List (List BoxImg)) : List BoxImg :=
  page_boxes.foldl (fun acc l => acc ++ l) []

/-- complete_qr_extractor.py `process_pdf` lines 185-296 in fragment mode: process
every collected box starting from counter 0; the second component is the ticket count
the function returns. -/
def process_pdf (design_width design_height : ℤ) (qr_scale : ℚ) (qr_margin : ℤ)
    (pos : QrPosition) (start_number : Option ℤ) (mask_awaiting : Bool)
    (page_boxes : List (List BoxImg)) : List OutPage × ℕ :=
  process_go design_width design_height qr_scale qr_margin pos start_number
    mask_awaiting (collect_boxes page_boxes) 0

/-! ### General lemmas -/

theorem pyInt_of_nonneg {q : ℚ} (h : 0 ≤ q) : pyInt q = ⌊q⌋ := by
  simp [pyInt, not_lt.2 h]

theorem pyInt_nonneg {q : ℚ} (h : 0 ≤ q) : 0 ≤ pyInt q := by
  rw [pyInt_of_nonneg h]
  exact Int.floor_nonneg.2 h

theorem pyInt_le {q : ℚ} (h : 0 ≤ q) : (pyInt q : ℚ) ≤ q := by
  rw [pyInt_of_nonneg h]
  exact Int.floor_le q

theorem foldl_drawRect (f : QRBox → Rect) (qrs : List QRBox) (m : ℤ × ℤ → ℤ)
    (p : ℤ × ℤ) :
    (qrs.foldl (fun acc q => drawRect acc (f q) 0) m) p =
      if qrs.any (fun q => inRect (f q) p) then 0 else m p := by
  induction qrs generalizing m with
  | nil => simp
  | cons q qs ih =>
    simp only [List.foldl_cons, List.any_cons, ih, drawRect]
    by_cases h : inRect (f q) p = true <;> simp [h]

theorem buildMask_eq (pw ph padding : ℤ) (opacity : ℚ) (qrs : List QRBox) (p : ℤ × ℤ) :
    buildMask pw ph padding opacity qrs p =
      if qrs.any (fun q => inRect (protRect pw ph padding q) p) then 0
      else pyInt (255 * opacity) :=
  foldl_drawRect (protRect pw ph padding) qrs _ p

/-! ### Claim C1 -/

/-- C1 (amended): for every page, design image, padding and opacity, if at least one QR
region was detected then the overlay's alpha channel equals `int(255 * opacity)`
(Python truncation toward zero, not rounding) at every pixel outside the padded,
page-clamped protected rectangles and is exactly 0 at every pixel inside one of them;
if zero regions were detected, the output alpha at every pixel `p` equals
`int(design_alpha(p) * opacity)`, preserving the design's own transparency shape. -/
theorem overlay_alpha_spec (pw ph padding : ℤ) (opacity : ℚ) (designAlpha : ℤ × ℤ → ℤ)
    (qrs : List QRBox) (p : ℤ × ℤ) :
    (qrs ≠ [] →
      ((∃ q ∈ qrs, inRect (protRect pw ph padding q) p) →
          overlayAlpha pw ph padding opacity designAlpha qrs p = 0) ∧
      ((∀ q ∈ qrs, ¬ (inRect (protRect pw ph padding q) p = true)) →
          overlayAlpha pw ph padding opacity designAlpha qrs p = pyInt (255 * opacity))) ∧
    (qrs = [] →
      overlayAlpha pw ph padding opacity designAlpha qrs p =
        pyInt ((designAlpha p : ℚ) * opacity)) := by
  constructor
  · intro hne
    have hempty : qrs.isEmpty = false := by
      cases qrs with
      | nil => exact absurd rfl hne
      | cons a l => rfl
    constructor
    · rintro ⟨q, hq, hin⟩
      have hany : qrs.any (fun q => inRect (protRect pw ph padding q) p) = true :=
        List.any_eq_true.2 ⟨q, hq, hin⟩
      simp [overlayAlpha, hempty, buildMask_eq, hany]
    · intro hall
      have hany : qrs.any (fun q => inRect (protRect pw ph padding q) p) = false := by
        simp only [List.any_eq_false]
        exact fun q hq => hall q hq
      simp [overlayAlpha, hempty, buildMask_eq, hany]
  · intro h
    subst h
    simp [overlayAlpha]

theorem overlay_alpha_spec_witness :
    overlayAlpha 100 100 15 (7/10) (fun _ => 255) [⟨50, 50, 25, 25⟩] (50, 50) = 0 ∧
    overlayAlpha 100 100 15 (7/10) (fun _ => 255) [⟨50, 50, 25, 25⟩] (95, 95) =
      pyInt (255 * (7/10)) ∧
    overlayAlpha 100 100 15 (7/10) (fun _ => 255) [] (5, 5) =
      pyInt (((255 : ℤ) : ℚ) * (7/10)) := by
  refine ⟨?_, ?_, ?_⟩
  · exact ((overlay_alpha_spec 100 100 15 (7/10) (fun _ => 255) [⟨50, 50, 25, 25⟩]
      (50, 50)).1 (by decide)).1 ⟨⟨50, 50, 25, 25⟩, by simp, by decide⟩
  · refine ((overlay_alpha_spec 100 100 15 (7/10) (fun _ => 255) [⟨50, 50, 25, 25⟩]
      (95, 95)).1 (by decide)).2 ?_
    intro q hq
    have hq1 : q = ⟨50, 50, 25, 25⟩ := List.mem_singleton.1 hq
    subst hq1
    decide
  · exact (overlay_alpha_spec 100 100 15 (7/10) (fun _ => 255) [] (5, 5)).2 rfl

/-- C1 counterexample: the code initializes the mask with `int(255 * opacity)`
(truncation), not `round(255 * opacity)`. At opacity 7/10 every unprotected pixel gets
alpha 178 while the claim demands `round(178.5) = 179`. -/
theorem overlay_alpha_round_cex :
    overlayAlpha 100 100 15 (7/10) (fun _ => 255) [⟨50, 50, 25, 25⟩] (95, 95) = 178 ∧
    round ((255 : ℚ) * (7/10)) = 179 ∧
    overlayAlpha 100 100 15 (7/10) (fun _ => 255) [⟨50, 50, 25, 25⟩] (95, 95) ≠
      round ((255 : ℚ) * (7/10)) := by
  have h1 : overlayAlpha 100 100 15 (7/10) (fun _ => 255) [⟨50, 50, 25, 25⟩] (95, 95)
      = 178 := by
    rw [overlayAlpha]
    norm_num [buildMask_eq, inRect, protRect, pyInt]
  have h2 : round ((255 : ℚ) * (7/10)) = 179 := by
    rw [round_eq]
    norm_num
  refine ⟨h1, h2, ?_⟩
  rw [h1, h2]
  decide

/-! ### Claim C2 -/

/-- C2: `toPageSpace` divides each coordinate and dimension by the zoom factor with
truncation to integer page units; for every zoom `z > 0` and every raster box,
multiplying the page-space values back by `z` recovers the original raster values
within integer-truncation tolerance: each recovered value is at most the original and
differs from it by less than `z`. -/
theorem toPageSpace_roundtrip (z : ℕ) (hz : 0 < z) (r : RasterBox) :
    z * (toPageSpace z r).x ≤ r.x ∧ r.x - z * (toPageSpace z r).x < z ∧
    z * (toPageSpace z r).y ≤ r.y ∧ r.y - z * (toPageSpace z r).y < z ∧
    z * (toPageSpace z r).w ≤ r.w ∧ r.w - z * (toPageSpace z r).w < z ∧
    z * (toPageSpace z r).h ≤ r.h ∧ r.h - z * (toPageSpace z r).h < z := by
  have key : ∀ n : ℕ, z * (n / z) ≤ n ∧ n - z * (n / z) < z := by
    intro n
    have h1 := Nat.div_add_mod n z
    have h2 := Nat.mod_lt n hz
    omega
  exact ⟨(key r.x).1, (key r.x).2, (key r.y).1, (key r.y).2,
    (key r.w).1, (key r.w).2, (key r.h).1, (key r.h).2⟩

theorem toPageSpace_roundtrip_witness :
    (0 : ℕ) < 2 ∧
    2 * (toPageSpace 2 ⟨101, 100, 51, 50⟩).x ≤ 101 ∧
    101 - 2 * (toPageSpace 2 ⟨101, 100, 51, 50⟩).x < 2 := by
  have h := toPageSpace_roundtrip 2 (by decide) ⟨101, 100, 51, 50⟩
  exact ⟨by decide, h.1, h.2.1⟩

/-! ### Claim C3 -/

/-- One clamped axis of the complete-box expansion: the clamped origin together with
the truncated clamped extent stays inside `[0, page]`, provided the region's origin is
inside the page and the raw extent is nonnegative. -/
theorem clamp_axis (page : ℚ) (c off ext : ℤ) (hc : 0 ≤ c) (hcb : (c : ℚ) ≤ page)
    (hoff : 0 ≤ off) (hext : 0 ≤ ext) :
    0 ≤ max 0 (c - off) ∧
    0 ≤ pyInt (min ((ext : ℤ) : ℚ) (page - ((max 0 (c - off) : ℤ) : ℚ))) ∧
    ((max 0 (c - off) : ℤ) : ℚ) +
      (pyInt (min ((ext : ℤ) : ℚ) (page - ((max 0 (c - off) : ℤ) : ℚ))) : ℤ) ≤ page := by
  have hb0 : (0 : ℤ) ≤ max 0 (c - off) := le_max_left 0 _
  have hble : max 0 (c - off) ≤ c := max_le hc (by omega)
  have hbleq : ((max 0 (c - off) : ℤ) : ℚ) ≤ (c : ℚ) := by exact_mod_cast hble
  have hv0 : 0 ≤ min ((ext : ℤ) : ℚ) (page - ((max 0 (c - off) : ℤ) : ℚ)) := by
    refine le_min ?_ ?_
    · exact_mod_cast hext
    · linarith
  refine ⟨hb0, pyInt_nonneg hv0, ?_⟩
  have hle2 : (pyInt (min ((ext : ℤ) : ℚ) (page - ((max 0 (c - off) : ℤ) : ℚ))) : ℚ) ≤
      min ((ext : ℤ) : ℚ) (page - ((max 0 (c - off) : ℤ) : ℚ)) := pyInt_le hv0
  have hle3 : min ((ext : ℤ) : ℚ) (page - ((max 0 (c - off) : ℤ) : ℚ)) ≤
      page - ((max 0 (c - off) : ℤ) : ℚ) := min_le_right _ _
  linarith

/-- C3 (amended): for every input region whose origin lies inside the page (the case
for regions produced by the detector) and nonnegative page dimensions and padding, the
complete box produced by the expansion and the symmetrically padded protection bounds
lie within `[0, page_width] × [0, page_height]` and never have negative width or
height. Without the in-page hypothesis the source computes negative widths: it has no
lower clamp at 0. -/
theorem complete_box_invariants (page_width page_height : ℚ) (pw ph padding : ℤ)
    (qr : QRBox) (hx : 0 ≤ qr.x) (hy : 0 ≤ qr.y) (hw : 0 ≤ qr.w) (hh : 0 ≤ qr.h)
    (hxb : (qr.x : ℚ) ≤ page_width) (hyb : (qr.y : ℚ) ≤ page_height)
    (hxi : qr.x ≤ pw) (hyi : qr.y ≤ ph) (hpad : 0 ≤ padding) :
    (0 ≤ (expandToCompleteBox page_width page_height qr).x ∧
     0 ≤ (expandToCompleteBox page_width page_height qr).y ∧
     0 ≤ (expandToCompleteBox page_width page_height qr).w ∧
     0 ≤ (expandToCompleteBox page_width page_height qr).h ∧
     ((expandToCompleteBox page_width page_height qr).x : ℚ) +
       ((expandToCompleteBox page_width page_height qr).w : ℤ) ≤ page_width ∧
     ((expandToCompleteBox page_width page_height qr).y : ℚ) +
       ((expandToCompleteBox page_width page_height qr).h : ℤ) ≤ page_height) ∧
    (0 ≤ (protRect pw ph padding qr).x1 ∧
     (protRect pw ph padding qr).x1 ≤ (protRect pw ph padding qr).x2 ∧
     (protRect pw ph padding qr).x2 ≤ pw ∧
     0 ≤ (protRect pw ph padding qr).y1 ∧
     (protRect pw ph padding qr).y1 ≤ (protRect pw ph padding qr).y2 ∧
     (protRect pw ph padding qr).y2 ≤ ph) := by
  constructor
  · have hextw : 0 ≤ qr.w + 2 * side_padding := by
      have : side_padding = 20 := rfl
      omega
    have hexth : 0 ≤ qr.h + text_height + bottom_padding := by
      have h1 : text_height = 80 := rfl
      have h2 : bottom_padding = 10 := rfl
      omega
    have hX := clamp_axis page_width qr.x side_padding (qr.w + 2 * side_padding)
      hx hxb (by decide) hextw
    have hY := clamp_axis page_height qr.y text_height
      (qr.h + text_height + bottom_padding) hy hyb (by decide) hexth
    simp only [expandToCompleteBox]
    exact ⟨hX.1, hY.1, hX.2.1, hY.2.1, hX.2.2, hY.2.2⟩
  · simp only [protRect]
    omega

theorem complete_box_invariants_witness :
    0 ≤ (expandToCompleteBox 200 300 ⟨50, 60, 25, 25⟩).w ∧
    ((expandToCompleteBox 200 300 ⟨50, 60, 25, 25⟩).x : ℚ) +
      ((expandToCompleteBox 200 300 ⟨50, 60, 25, 25⟩).w : ℤ) ≤ 200 ∧
    (protRect 200 300 15 ⟨50, 60, 25, 25⟩).x2 ≤ 200 := by
  have h := complete_box_invariants 200 300 200 300 15 ⟨50, 60, 25, 25⟩
    (by decide) (by decide) (by decide) (by decide)
    (by norm_num) (by norm_num) (by decide) (by decide) (by decide)
  exact ⟨h.1.2.2.1, h.1.2.2.2.2.1, h.2.2.2.1⟩

/-- C3 counterexample: the claim quantifies over pathological inputs too, but the
source has no lower clamp at 0: for a region at x = 100 on a 50-wide page the computed
complete-box width is `min(10 + 40, 50 - 80) = -30`, which is negative. -/
theorem complete_box_negative_width_cex :
    (expandToCompleteBox 50 50 ⟨100, 100, 10, 10⟩).w = -30 ∧
    (expandToCompleteBox 50 50 ⟨100, 100, 10, 10⟩).w < 0 := by
  have h : (expandToCompleteBox 50 50 ⟨100, 100, 10, 10⟩).w = -30 := by
    simp only [expandToCompleteBox, side_padding, text_height, bottom_padding]
    norm_num [pyInt]
  refine ⟨h, ?_⟩
  rw [h]
  decide

/-! ### Claim C4 -/

/-- C4 (amended): in app.py's `_detect_qr_codes` every internal detection failure is
caught and treated as zero regions from that method, the cascade continuing to the next
method, and a (possibly empty) list is always returned: a failing method yields the
same result as one that found nothing, for each of the three methods. In
complete_qr_extractor.py (and standalone.py), by contrast, the decode calls are not
guarded and a decoder failure propagates to the caller. -/
theorem detect_failure_isolated (e e2 e3 : String) (m1 m2 : MethodResult)
    (m3i : MethodResult) :
    detect_qr_codes (.error e) m2 (detect_qr_by_contours m3i) =
      detect_qr_codes (.ok []) m2 (detect_qr_by_contours m3i) ∧
    detect_qr_codes m1 (.error e2) (detect_qr_by_contours m3i) =
      detect_qr_codes m1 (.ok []) (detect_qr_by_contours m3i) ∧
    detect_qr_codes m1 m2 (detect_qr_by_contours (.error e3)) =
      detect_qr_codes m1 m2 (detect_qr_by_contours (.ok [])) := by
  refine ⟨rfl, ?_, rfl⟩
  simp only [detect_qr_codes, recover]

/-- C4 counterexample: `extract_complete_qr_boxes` in complete_qr_extractor.py wraps
neither decode call in `try/except`; a failure of the first decode propagates to the
caller instead of being treated as zero regions. -/
theorem extract_qr_regions_raises_cex :
    extract_qr_regions (.error "pyzbar decode failure") (.ok []) =
      .error "pyzbar decode failure" := rfl

/-! ### Claim C5 -/

/-- C5: the detection cascade short-circuits: the returned regions are exactly those of
the first method in the fixed order (direct decode, threshold-enhanced decode, contour
fallback) that yielded at least one region — and the later methods cannot influence the
result once an earlier one has yielded regions. -/
theorem detect_cascade_first_nonempty (m1 m2 : MethodResult) (m3 : List QRBox) :
    (recover m1 ≠ [] → detect_qr_codes m1 m2 m3 = recover m1) ∧
    (recover m1 = [] → recover m2 ≠ [] → detect_qr_codes m1 m2 m3 = recover m2) ∧
    (recover m1 = [] → recover m2 = [] → detect_qr_codes m1 m2 m3 = m3) ∧
    (recover m1 ≠ [] → ∀ m2i : MethodResult, ∀ m3i : List QRBox,
        detect_qr_codes m1 m2i m3i = recover m1) ∧
    (recover m1 = [] → recover m2 ≠ [] → ∀ m3i : List QRBox,
        detect_qr_codes m1 m2 m3i = recover m2) := by
  have hcase : ∀ (m2i : MethodResult) (m3i : List QRBox),
      recover m1 ≠ [] → detect_qr_codes m1 m2i m3i = recover m1 := by
    intro m2i m3i hne
    have h1 : (recover m1).isEmpty = false := by
      cases hr : recover m1 with
      | nil => exact absurd hr hne
      | cons a l => rfl
    simp [detect_qr_codes, h1]
  have hcase2 : ∀ m3i : List QRBox, recover m1 = [] → recover m2 ≠ [] →
      detect_qr_codes m1 m2 m3i = recover m2 := by
    intro m3i h1 hne
    have h2 : (recover m2).isEmpty = false := by
      cases hr : recover m2 with
      | nil => exact absurd hr hne
      | cons a l => rfl
    simp [detect_qr_codes, h1, h2]
  refine ⟨hcase m2 m3, hcase2 m3, ?_, fun hne m2i m3i => hcase m2i m3i hne,
    fun h1 hne m3i => hcase2 m3i h1 hne⟩
  intro h1 h2
  simp [detect_qr_codes, h1, h2]

theorem detect_cascade_first_nonempty_witness :
    detect_qr_codes (.ok [⟨1, 2, 3, 4⟩]) (.ok [⟨9, 9, 9, 9⟩]) [⟨7, 7, 7, 7⟩] =
      [⟨1, 2, 3, 4⟩] ∧
    detect_qr_codes (.ok []) (.ok [⟨9, 9, 9, 9⟩]) [⟨7, 7, 7, 7⟩] = [⟨9, 9, 9, 9⟩] ∧
    detect_qr_codes (.error "boom") (.ok []) [⟨7, 7, 7, 7⟩] = [⟨7, 7, 7, 7⟩] := by
  refine ⟨?_, ?_, ?_⟩
  · exact (detect_cascade_first_nonempty (.ok [⟨1, 2, 3, 4⟩]) (.ok [⟨9, 9, 9, 9⟩])
      [⟨7, 7, 7, 7⟩]).1 (by decide)
  · exact (detect_cascade_first_nonempty (.ok []) (.ok [⟨9, 9, 9, 9⟩])
      [⟨7, 7, 7, 7⟩]).2.1 rfl (by decide)
  · exact (detect_cascade_first_nonempty (.error "boom") (.ok [])
      [⟨7, 7, 7, 7⟩]).2.2.1 rfl rfl

/-! ### Claim C6 -/

/-- C6 (amended): the standalone CLI rejects an opacity outside `[0, 1]` during input
validation, aborting with an error before any processing so that nothing is written;
the Flask `/process` route however performs no opacity validation at all, so an
out-of-range opacity reaches the compositor unchecked. -/
theorem opacity_validation (a : CliArgs) (hp : a.pdfExists = true)
    (hd : a.designExists = true) (hbad : ¬ (0 ≤ a.opacity ∧ a.opacity ≤ 1)) :
    standalone_main a = .error "Error: Opacity must be between 0.0 and 1.0" ∧
    ∀ opacity : ℚ, ∀ padding : ℤ,
      process_overlay opacity padding = .ok (opacity, padding, pyInt (255 * opacity)) := by
  refine ⟨?_, fun _ _ => rfl⟩
  simp [standalone_main, hp, hd, hbad]

theorem opacity_validation_witness :
    standalone_main ⟨true, true, 3/2, 15⟩ =
      .error "Error: Opacity must be between 0.0 and 1.0" :=
  (opacity_validation ⟨true, true, 3/2, 15⟩ rfl rfl (by norm_num)).1

/-- C6 counterexample: opacity 1.5 posted to the `/process` route is not rejected and
is not stopped before the compositor: the route hands it to `apply_overlay`, whose mask
initialization computes `int(255 * 1.5) = 382`. -/
theorem process_overlay_no_validation_cex :
    process_overlay (3/2) 15 = .ok (3/2, 15, 382) ∧
    pyInt (255 * (3/2)) = 382 := by
  have h : pyInt (255 * (3/2 : ℚ)) = 382 := by
    rw [pyInt, if_neg (by norm_num)]
    norm_num
  refine ⟨?_, h⟩
  unfold process_overlay
  rw [h]

/-! ### Claims C7-C10: the fragment-mode processing loop -/

theorem process_go_numbers (dw dh : ℤ) (sc : ℚ) (m : ℤ) (pos : QrPosition)
    (mask_awaiting : Bool) (s : ℤ) (boxes : List BoxImg) (t0 : ℕ) :
    ((process_go dw dh sc m pos (some s) mask_awaiting boxes t0).1.map
        (fun pg => stampedNumber pg.frag)) =
      (List.range boxes.length).map (fun i : ℕ => some (s + (t0 : ℤ) + (i : ℤ))) := by
  induction boxes generalizing t0 with
  | nil => simp [process_go]
  | cons b rest ih =>
    have hhead : stampedNumber (transform_fragment mask_awaiting (some s) (t0 + 1)
        (FragImage.original b.w b.h)) = some (s + (t0 : ℤ)) := by
      simp only [transform_fragment, Option.isSome_some, Bool.or_true, if_true,
        Option.map_some', stampedNumber, Option.some.injEq]
      push_cast
      ring
    rw [show (b :: rest).length = rest.length + 1 from rfl, List.range_succ_eq_map]
    simp only [process_go, List.map_cons, hhead, ih (t0 + 1), List.map_map]
    congr 1
    · simp
    · refine List.map_congr_left fun i _ => ?_
      simp only [Function.comp_apply, Option.some.injEq]
      push_cast
      ring

theorem process_go_count (dw dh : ℤ) (sc : ℚ) (m : ℤ) (pos : QrPosition)
    (start_number : Option ℤ) (mask_awaiting : Bool) (boxes : List BoxImg) (t0 : ℕ) :
    (process_go dw dh sc m pos start_number mask_awaiting boxes t0).1.length =
      boxes.length ∧
    (process_go dw dh sc m pos start_number mask_awaiting boxes t0).2 =
      t0 + boxes.length := by
  induction boxes generalizing t0 with
  | nil => simp [process_go]
  | cons b rest ih =>
    simp only [process_go, List.length_cons]
    refine ⟨by simp [(ih (t0 + 1)).1], ?_⟩
    have h2 := (ih (t0 + 1)).2
    omega

theorem collect_boxes_length (page_boxes : List (List BoxImg)) :
    (collect_boxes page_boxes).length = (page_boxes.map List.length).sum := by
  have key : ∀ (ps : List (List BoxImg)) (acc : List BoxImg),
      (ps.foldl (fun a l => a ++ l) acc).length =
        acc.length + (ps.map List.length).sum := by
    intro ps
    induction ps with
    | nil => intro acc; simp
    | cons q rest ih =>
      intro acc
      simp only [List.foldl_cons, ih, List.length_append, List.map_cons, List.sum_cons]
      omega
  simpa using key page_boxes []

theorem process_go_placements (dw dh : ℤ) (sc : ℚ) (m : ℤ) (pos : QrPosition)
    (start_number : Option ℤ) (mask_awaiting : Bool) (boxes : List BoxImg) (t0 : ℕ) :
    ∀ pg ∈ (process_go dw dh sc m pos start_number mask_awaiting boxes t0).1,
      pg.placements.length = (positions_to_place pos).length := by
  induction boxes generalizing t0 with
  | nil =>
    intro pg hpg
    simp [process_go] at hpg
  | cons b rest ih =>
    intro pg hpg
    simp only [process_go, List.mem_cons] at hpg
    rcases hpg with h | h
    · subst h
      simp [plan_placements]
    · exact ih (t0 + 1) pg h

/-- C7: when a starting number `start` is supplied and N fragments are emitted in
page-then-region order, the ticket numbers stamped onto the fragments are exactly
start, start+1, ..., start+N-1: a contiguous run with no duplicates and no gaps, the
counter advancing exactly once per emitted fragment. -/
theorem ticket_numbers_contiguous (dw dh : ℤ) (sc : ℚ) (m : ℤ) (pos : QrPosition)
    (mask_awaiting : Bool) (s : ℤ) (page_boxes : List (List BoxImg)) :
    ((process_pdf dw dh sc m pos (some s) mask_awaiting page_boxes).1.map
        (fun pg => stampedNumber pg.frag)) =
      (List.range (collect_boxes page_boxes).length).map
        (fun i : ℕ => some (s + (i : ℤ))) ∧
    ((process_pdf dw dh sc m pos (some s) mask_awaiting page_boxes).1.map
        (fun pg => stampedNumber pg.frag)).Nodup := by
  have heq := process_go_numbers dw dh sc m pos mask_awaiting s
    (collect_boxes page_boxes) 0
  have heq2 : ((process_pdf dw dh sc m pos (some s) mask_awaiting page_boxes).1.map
      (fun pg => stampedNumber pg.frag)) =
      (List.range (collect_boxes page_boxes).length).map
        (fun i : ℕ => some (s + (i : ℤ))) := by
    simpa [process_pdf] using heq
  have hinj : Function.Injective (fun i : ℕ => some (s + (i : ℤ))) := by
    intro a b hab
    simp only [Option.some.injEq, add_right_inj, Nat.cast_inj] at hab
    exact hab
  refine ⟨heq2, ?_⟩
  rw [heq2]
  exact List.Nodup.map hinj (List.nodup_range _)

/-- C8: fragment placement with margin m on a page of size W x H for a fragment of
size w x h yields `(m, H - h - m)` for mode left, `(W - w - m, H - h - m)` for mode
right, and both positions for mode both, with any negative coordinate re-clamped to m;
in particular mode both with margin 20 on a 600 x 800 page and a 100 x 50 fragment
yields (20, 730) and (480, 730). -/
theorem plan_placements_spec (W H w h m : ℤ) :
    plan_placements W H w h m .left =
      [(m, if H - h - m < 0 then m else H - h - m)] ∧
    plan_placements W H w h m .right =
      [((if W - w - m < 0 then m else W - w - m),
        if H - h - m < 0 then m else H - h - m)] ∧
    plan_placements W H w h m .both =
      [(m, if H - h - m < 0 then m else H - h - m),
       ((if W - w - m < 0 then m else W - w - m),
        if H - h - m < 0 then m else H - h - m)] ∧
    plan_placements 600 800 100 50 20 .both = [(20, 730), (480, 730)] := by
  refine ⟨?_, ?_, ?_, by decide⟩ <;>
    simp [plan_placements, positions_to_place, place_side, ite_self]

/-- C9 (implicit): whenever a starting ticket number is supplied, the label-masking
transform `mask_awaiting_payment` is applied to the fragment even if the caller
requested that masking be suppressed (mask_awaiting = false, the CLI --no-mask flag
mapping to `mask_awaiting=not args.no_mask`): the suppression flag is overridden by
the presence of a start number. -/
theorem mask_override (s : ℤ) (n : ℕ) (w h : ℤ) (no_mask : Bool) :
    transform_fragment false (some s) n (FragImage.original w h) =
      FragImage.masked (FragImage.original w h) (some (s + (n : ℤ) - 1)) ∧
    transform_fragment (!no_mask) (some s) n (FragImage.original w h) =
      FragImage.masked (FragImage.original w h) (some (s + (n : ℤ) - 1)) := by
  constructor <;> simp [transform_fragment]

/-- C10 (implicit): in fragment mode `process_pdf` creates exactly one output page per
detected complete QR box; the returned ticket count equals the total number of QR
boxes detected across all input pages; and placement mode both puts two copies of the
same fragment onto that one page rather than creating an additional page. -/
theorem one_page_per_box (dw dh : ℤ) (sc : ℚ) (m : ℤ) (pos : QrPosition)
    (start_number : Option ℤ) (mask_awaiting : Bool)
    (page_boxes : List (List BoxImg)) :
    (process_pdf dw dh sc m pos start_number mask_awaiting page_boxes).1.length =
      (collect_boxes page_boxes).length ∧
    (process_pdf dw dh sc m pos start_number mask_awaiting page_boxes).2 =
      (page_boxes.map List.length).sum ∧
    ((process_pdf dw dh sc m .both start_number mask_awaiting page_boxes).1.all
        (fun pg => pg.placements.length == 2)) = true ∧
    (process_pdf dw dh sc m .both start_number mask_awaiting page_boxes).1.length =
      (process_pdf dw dh sc m pos start_number mask_awaiting page_boxes).1.length := by
  have hc := process_go_count dw dh sc m pos start_number mask_awaiting
    (collect_boxes page_boxes) 0
  have hcb := process_go_count dw dh sc m .both start_number mask_awaiting
    (collect_boxes page_boxes) 0
  refine ⟨hc.1, ?_, ?_, ?_⟩
  · have h2 := hc.2
    simp only [process_pdf] at h2 ⊢
    rw [h2, collect_boxes_length]
    omega
  · rw [List.all_eq_true]
    intro pg hpg
    have hlen := process_go_placements dw dh sc m .both start_number mask_awaiting
      (collect_boxes page_boxes) 0 pg hpg
    simpa [positions_to_place] using hlen
  · simp only [process_pdf]
    rw [hc.1, hcb.1]

end TicketManager
